import Mathlib

/-!
Verification of the Disney+ export → YamTrack import converter (`main.py`).

The embedding models Python strings as lists of character codes (`PyStr`),
so that `str.lower`, `str.strip` and f-string rendering of integers are
explicit functions.  Timestamps are modelled as already-parsed ordinals
(`endDate`, `endTime` natural numbers); the claims never inspect the
textual date format, only the ordering.  The remote TMDB service is
modelled as a deterministic response table (`Net`); a second, fallible
model (`FNet`) with `Except` captures the fact that `requests.get` and
`response.json()` can raise.
-/

/-- Python strings as lists of Unicode code points. -/
abbrev PyStr := List Nat

/-- Whitespace test used by Python's default `str.strip` (ASCII subset). -/
def isWsCode (c : Nat) : Bool :=
  decide (c = 32 ∨ c = 9 ∨ c = 10 ∨ c = 13 ∨ c = 11 ∨ c = 12)

/-- One character of Python's `str.lower` (ASCII letters). -/
def lowerCode (c : Nat) : Nat :=
  if 65 ≤ c ∧ c ≤ 90 then c + 32 else c

/-- `s.lower()`. -/
def pyLower (s : PyStr) : PyStr := s.map lowerCode

/-- `s.strip()`: drop leading and trailing whitespace. -/
def pyStrip (s : PyStr) : PyStr :=
  ((s.dropWhile isWsCode).reverse.dropWhile isWsCode).reverse

/-- `s.lower().strip()`, the normalisation applied to episode-index keys
and to queried episode titles in `TMDBClient.get_episode_info`. -/
def normTitle (s : PyStr) : PyStr := pyStrip (pyLower s)

theorem isWsCode_lowerCode (c : Nat) : isWsCode (lowerCode c) = isWsCode c := by
  unfold isWsCode lowerCode
  split
  · next h => simp only [decide_eq_decide]; omega
  · rfl

theorem pyStrip_pyLower_comm (s : PyStr) :
    pyStrip (pyLower s) = pyLower (pyStrip s) := by
  have hcomp : ∀ t : PyStr, t.dropWhile (isWsCode ∘ lowerCode) =
      t.dropWhile isWsCode := by
    intro t
    congr 1
    funext c
    exact isWsCode_lowerCode c
  unfold pyStrip pyLower
  rw [List.dropWhile_map, hcomp, ← List.map_reverse, List.dropWhile_map, hcomp,
    ← List.map_reverse]

/-- Decimal rendering of a natural number, as in Python's `f"{n}"`. -/
def natChars (n : Nat) : PyStr :=
  if h : n < 10 then [48 + n]
  else natChars (n / 10) ++ [48 + n % 10]
decreasing_by exact Nat.div_lt_self (by omega) (by omega)

/-- Value of a digit string (inverse of `natChars`). -/
def charsVal (s : PyStr) : Nat :=
  s.foldl (fun a c => a * 10 + (c - 48)) 0

theorem charsVal_append_digit (s : PyStr) (d : Nat) :
    charsVal (s ++ [d]) = charsVal s * 10 + (d - 48) := by
  unfold charsVal
  rw [List.foldl_append]
  rfl

theorem charsVal_natChars (n : Nat) : charsVal (natChars n) = n := by
  induction n using Nat.strong_induction_on with
  | _ n ih =>
    unfold natChars
    split
    · next h =>
      unfold charsVal
      simp only [List.foldl_cons, List.foldl_nil]
      omega
    · next h =>
      rw [charsVal_append_digit, ih (n / 10) (Nat.div_lt_self (by omega) (by omega))]
      omega

theorem natChars_inj {m n : Nat} (h : natChars m = natChars n) : m = n := by
  have := charsVal_natChars m
  rw [h, charsVal_natChars] at this
  omega

theorem natChars_digits (n : Nat) : ∀ c ∈ natChars n, 48 ≤ c ∧ c ≤ 57 := by
  induction n using Nat.strong_induction_on with
  | _ n ih =>
    unfold natChars
    split
    · next h =>
      intro c hc
      simp only [List.mem_singleton] at hc
      omega
    · next h =>
      intro c hc
      rw [List.mem_append] at hc
      rcases hc with hc | hc
      · exact ih (n / 10) (Nat.div_lt_self (by omega) (by omega)) c hc
      · simp only [List.mem_singleton] at hc
        have := Nat.mod_lt n (show 0 < 10 by omega)
        omega

theorem natChars_ne_nil (n : Nat) : natChars n ≠ [] := by
  unfold natChars
  split
  · simp
  · simp

/-- The season deduplication key `f"{tv_id}_{season_number}"` from the
resolution pipeline. -/
def seasonKeyChars (tv sn : Nat) : PyStr := natChars tv ++ 95 :: natChars sn

theorem append_sep_inj {a1 a2 b1 b2 : PyStr}
    (h1 : (95 : Nat) ∉ a1) (h2 : (95 : Nat) ∉ a2)
    (h : a1 ++ 95 :: b1 = a2 ++ 95 :: b2) : a1 = a2 ∧ b1 = b2 := by
  induction a1 generalizing a2 with
  | nil =>
    cases a2 with
    | nil => simpa using h
    | cons y t2 =>
      simp only [List.nil_append, List.cons_append, List.cons.injEq] at h
      exact absurd (h.1 ▸ List.mem_cons_self y t2) (by simpa [h.1] using h2)
  | cons x t1 ih =>
    cases a2 with
    | nil =>
      simp only [List.cons_append, List.nil_append, List.cons.injEq] at h
      exact absurd (h.1 ▸ List.mem_cons_self x t1) (by simpa [h.1] using h1)
    | cons y t2 =>
      simp only [List.cons_append, List.cons.injEq] at h
      have h1' : (95 : Nat) ∉ t1 := fun hm => h1 (List.mem_cons_of_mem x hm)
      have h2' : (95 : Nat) ∉ t2 := fun hm => h2 (List.mem_cons_of_mem y hm)
      obtain ⟨ha, hb⟩ := ih h1' h2' h.2
      exact ⟨by rw [h.1, ha], hb⟩

theorem notMem_95_natChars (n : Nat) : (95 : Nat) ∉ natChars n := by
  intro hm
  have := natChars_digits n 95 hm
  omega

theorem seasonKeyChars_inj {tv sn tv' sn' : Nat}
    (h : seasonKeyChars tv sn = seasonKeyChars tv' sn') : tv = tv' ∧ sn = sn' := by
  unfold seasonKeyChars at h
  obtain ⟨ha, hb⟩ := append_sep_inj (notMem_95_natChars tv) (notMem_95_natChars tv') h
  exact ⟨natChars_inj ha, natChars_inj hb⟩

/-- One episode entry of a season listing (`episode["name"]`,
`episode["episode_number"]`). -/
structure Episode where
  name : PyStr
  episode_number : Nat
deriving DecidableEq

/-- Deterministic response table of the TMDB API (the successful-request
model): search result id lists, the `seasons` list of a show, and the
`episodes` list of a season. -/
structure Net where
  searchTvResults : PyStr → List Nat
  searchMovieResults : PyStr → List Nat
  tvSeasons : Nat → List Nat
  seasonEpisodes : Nat → Nat → List Episode

/-- `TMDBClient.search_tv_show`: first search result, if any. -/
def search_tv_show (net : Net) (show_name : PyStr) : Option Nat :=
  (net.searchTvResults show_name).head?

/-- `TMDBClient.search_movie`: first search result, if any. -/
def search_movie (net : Net) (title : PyStr) : Option Nat :=
  (net.searchMovieResults title).head?

/-- The per-show episode index: normalised episode title ↦
(season_number, episode_number); later entries override earlier ones,
as Python dict assignment does. -/
abbrev EpIndex := List (PyStr × (Nat × Nat))

/-- Python `dict.get` with last-assignment-wins semantics. -/
def dictGet (d : EpIndex) (k : PyStr) : Option (Nat × Nat) :=
  match d with
  | [] => none
  | (k', v) :: rest =>
    match dictGet rest k with
    | some v' => some v'
    | none => if k' = k then some v else none

/-- The `all_episodes` dict built by `get_episode_info` on a cache miss:
for each season of the show, for each episode of that season, the entry
`episode["name"].lower().strip() ↦ (season_number, episode_number)`. -/
def buildIndex (net : Net) (tv_id : Nat) : EpIndex :=
  (net.tvSeasons tv_id).flatMap fun season_number =>
    (net.seasonEpisodes tv_id season_number).map fun e =>
      (normTitle e.name, (season_number, e.episode_number))

/-- The client's `_show_cache`, an association of show id to episode index. -/
abbrev Cache := List (Nat × EpIndex)

def cacheGet (c : Cache) (tv_id : Nat) : Option EpIndex :=
  (c.find? fun p => p.1 == tv_id).map (·.2)

/-- Result of one `get_episode_info` call: the looked-up coordinate, the
updated cache, and the number of HTTP requests issued by the call. -/
structure FetchOut where
  result : Option (Nat × Nat)
  cache : Cache
  requests : Nat
deriving DecidableEq

/-- `TMDBClient.get_episode_info`: on a cache miss, fetch the show (one
request) and every season (one request each), build the index and store
it; then look up the queried title, lower-cased and stripped. -/
def get_episode_info (net : Net) (c : Cache) (tv_id : Nat) (episode_title : PyStr) :
    FetchOut :=
  match cacheGet c tv_id with
  | some idx => ⟨dictGet idx (normTitle episode_title), c, 0⟩
  | none =>
    let idx := buildIndex net tv_id
    ⟨dictGet idx (normTitle episode_title), (tv_id, idx) :: c, 1 + (net.tvSeasons tv_id).length⟩

/-- One raw input row of the export CSV after pandas parsing: the two raw
title columns (`NaN` as `none`) and the parsed `End Date`/`End Time`
values, modelled as ordinals. -/
structure Row where
  programTitle : Option PyStr
  seasonTitle : Option PyStr
  endDate : Nat
  endTime : Nat
deriving DecidableEq

/-- The deduplication key: the raw, untrimmed
`(Program Title, Season Title)` columns. -/
def rawKey (r : Row) : Option PyStr × Option PyStr := (r.programTitle, r.seasonTitle)

/-- `str(x).strip() if pandas.notna(x) else ""`. -/
def canonTitle : Option PyStr → PyStr
  | none => []
  | some t => pyStrip t

/-- The key order of `sort_values(by=["End Date", "End Time"])`. -/
def tsLe (a b : Row) : Prop :=
  a.endDate < b.endDate ∨ (a.endDate = b.endDate ∧ a.endTime ≤ b.endTime)

/-- Strictly later watch timestamp: end date, then end time. -/
def tsLt (a b : Row) : Prop :=
  a.endDate < b.endDate ∨ (a.endDate = b.endDate ∧ a.endTime < b.endTime)

instance : DecidableRel tsLe := fun a b => by unfold tsLe; exact inferInstance

instance : DecidableRel tsLt := fun a b => by unfold tsLt; exact inferInstance

instance : IsTotal Row tsLe := ⟨fun a b => by unfold tsLe; omega⟩

instance : IsTrans Row tsLe := ⟨fun a b c => by unfold tsLe; omega⟩

/-- `df.sort_values(by=["End Date", "End Time"])`. -/
def sortRows (rows : List Row) : List Row := rows.insertionSort tsLe

/-- `drop_duplicates(subset=["Program Title", "Season Title"], keep="last")`:
a row is kept iff no later row carries the same raw key. -/
def dropDupKeepLast : List Row → List Row
  | [] => []
  | a :: t =>
    if t.any (fun b => decide (rawKey b = rawKey a)) then dropDupKeepLast t
    else a :: dropDupKeepLast t

/-- The normalisation stage: sort chronologically, then deduplicate
keeping the last occurrence of each raw key. -/
def prepRows (rows : List Row) : List Row := dropDupKeepLast (sortRows rows)

/-- `f"{end_date} {end_time}+00:00"`; the date/time strings are abstracted
to the decimal form of the ordinals. -/
def endDatetime (r : Row) : PyStr :=
  natChars r.endDate ++ 32 :: natChars r.endTime ++ [43, 48, 48, 58, 48, 48]

/-- The diagnostics written to the log file by the row loop. -/
inductive Diag
  | warnMissingEpisode (seasonTitle : PyStr) (dt : PyStr)
  | errShowNotFound (seasonTitle : PyStr) (dt : PyStr)
  | errEpisodeNotFound (programTitle seasonTitle : PyStr) (dt : PyStr)
  | errMovieNotFound (programTitle : PyStr) (dt : PyStr)
deriving DecidableEq

/-- The `media_type` of an output record. -/
inductive Tier
  | tv
  | season
  | episode
  | movie
deriving DecidableEq

/-- One dict appended to `yamtrack_rows` (`source` is always `"tmdb"` and
is left implicit; absent numeric fields are `none`). -/
structure OutRec where
  media_id : Nat
  media_type : Tier
  season_number : Option Nat
  episode_number : Option Nat
  status : String
  end_date : PyStr
deriving DecidableEq

/-- The four-way classification of the `if/elif/elif` chain of the row
loop, keyed on Python truthiness (emptiness) of the canonical titles. -/
inductive RowClass
  | malformed
  | episodeRow
  | movieRow
  | noop
deriving DecidableEq

def classify (program_title season_title : PyStr) : RowClass :=
  if program_title = [] ∧ season_title ≠ [] then RowClass.malformed
  else if program_title ≠ [] ∧ season_title ≠ [] then RowClass.episodeRow
  else if program_title ≠ [] ∧ season_title = [] then RowClass.movieRow
  else RowClass.noop

/-- The loop state of `process_disney_data`: accumulated output rows, the
two emission sets, the client cache, the log, and an HTTP request tally. -/
structure PState where
  yamtrack_rows : List OutRec
  processed_tv_shows : List Nat
  processed_seasons : List PyStr
  cache : Cache
  diags : List Diag
  requests : Nat
deriving DecidableEq

def initState : PState := ⟨[], [], [], [], [], 0⟩

def tvShowRec (tv_id : Nat) : OutRec :=
  ⟨tv_id, Tier.tv, none, none, "In progress", []⟩

def seasonRec (tv_id sn : Nat) : OutRec :=
  ⟨tv_id, Tier.season, some sn, none, "In progress", []⟩

def episodeRec (tv_id sn en : Nat) (dt : PyStr) : OutRec :=
  ⟨tv_id, Tier.episode, some sn, some en, "Completed", dt⟩

def movieRec (movie_id : Nat) (dt : PyStr) : OutRec :=
  ⟨movie_id, Tier.movie, none, none, "Completed", dt⟩

/-- One iteration of the row loop of `process_disney_data`. -/
def processRow (net : Net) (st : PState) (r : Row) : PState :=
  let program_title := canonTitle r.programTitle
  let season_title := canonTitle r.seasonTitle
  let dt := endDatetime r
  match classify program_title season_title with
  | RowClass.malformed =>
    { st with diags := st.diags ++ [Diag.warnMissingEpisode season_title dt] }
  | RowClass.episodeRow =>
    match search_tv_show net season_title with
    | none =>
      { st with requests := st.requests + 1,
                diags := st.diags ++ [Diag.errShowNotFound season_title dt] }
    | some tv_id =>
      let f := get_episode_info net st.cache tv_id program_title
      match f.result with
      | none =>
        { st with requests := st.requests + 1 + f.requests, cache := f.cache,
                  diags := st.diags ++ [Diag.errEpisodeNotFound program_title season_title dt] }
      | some (season_number, episode_number) =>
        let showRecs := if tv_id ∈ st.processed_tv_shows then [] else [tvShowRec tv_id]
        let shows' := if tv_id ∈ st.processed_tv_shows then st.processed_tv_shows
                      else st.processed_tv_shows ++ [tv_id]
        let skey := seasonKeyChars tv_id season_number
        let seasonRecs := if skey ∈ st.processed_seasons then []
                          else [seasonRec tv_id season_number]
        let seasons' := if skey ∈ st.processed_seasons then st.processed_seasons
                        else st.processed_seasons ++ [skey]
        { yamtrack_rows := st.yamtrack_rows ++ showRecs ++ seasonRecs ++
            [episodeRec tv_id season_number episode_number dt],
          processed_tv_shows := shows',
          processed_seasons := seasons',
          cache := f.cache,
          diags := st.diags,
          requests := st.requests + 1 + f.requests }
  | RowClass.movieRow =>
    match search_movie net program_title with
    | none =>
      { st with requests := st.requests + 1,
                diags := st.diags ++ [Diag.errMovieNotFound program_title dt] }
    | some movie_id =>
      { st with requests := st.requests + 1,
                yamtrack_rows := st.yamtrack_rows ++ [movieRec movie_id dt] }
  | RowClass.noop => st

/-- `for index, row in df.iterrows(): ...` over the prepared rows. -/
def processRows (net : Net) (st : PState) : List Row → PState
  | [] => st
  | r :: rest => processRows net (processRow net st r) rest

/-- Observable outcome of one run: console messages, the written output
file (if any), and the total number of HTTP requests issued. -/
structure RunResult where
  console : List String
  output : Option (List OutRec)
  requests : Nat
deriving DecidableEq

/-- `process_disney_data` top level: a missing input file prints an error
and returns before any processing; otherwise the rows are sorted,
deduplicated, processed, and the collected records written out. -/
def process_disney_data (net : Net) (input : Option (List Row)) : RunResult :=
  match input with
  | none => ⟨["Error: file disney_plus_export.csv not found."], none, 0⟩
  | some rows =>
    let st := processRows net initState (prepRows rows)
    ⟨["Done! Import file 'yamtrack_import.csv' was created. See errors at 'errors.log'."],
      some st.yamtrack_rows, st.requests⟩

/-- One cell of the `season_number`/`episode_number` output column before
numeric conversion: absent (`NaN`), an integer, or a string. -/
inductive Cell
  | na
  | num (n : Nat)
  | str (s : PyStr)
deriving DecidableEq

/-- `pandas.to_numeric(..., errors="coerce")` on one cell: missing stays
missing, integers pass through, strings parse as decimal or coerce to NA. -/
def toNumericCell : Cell → Option Nat
  | Cell.na => none
  | Cell.num n => some n
  | Cell.str s =>
    if s ≠ [] ∧ s.all (fun c => decide (48 ≤ c ∧ c ≤ 57)) then some (charsVal s) else none

/-- The pandas `Int64` missing-value placeholder `"<NA>"`. -/
def naChars : PyStr := [60, 78, 65, 62]

/-- `astype("Int64").astype(str)` followed by `.replace("<NA>", "")`. -/
def renderNumField (c : Cell) : PyStr :=
  let s := match toNumericCell c with
    | some n => natChars n
    | none => naChars
  if s = naChars then [] else s

def seasonCell (r : OutRec) : Cell :=
  match r.season_number with
  | some n => Cell.num n
  | none => Cell.na

def episodeCell (r : OutRec) : Cell :=
  match r.episode_number with
  | some n => Cell.num n
  | none => Cell.na

def isTvRecFor (i : Nat) (r : OutRec) : Bool :=
  decide (r.media_type = Tier.tv ∧ r.media_id = i)

def isSeasonRecFor (i s : Nat) (r : OutRec) : Bool :=
  decide (r.media_type = Tier.season ∧ r.media_id = i ∧ r.season_number = some s)

/-- Number of show-tier records for show `i` in the output. -/
def countTv (l : List OutRec) (i : Nat) : Nat := l.countP (isTvRecFor i)

/-- Number of season-tier records for `(i, s)` in the output. -/
def countSeason (l : List OutRec) (i s : Nat) : Nat := l.countP (isSeasonRecFor i s)

/-- A row fully resolves as an episode of show `i` with coordinate
`(s, e)`: both canonical titles non-empty, the show search answers `i`,
and the episode index of `i` contains the trimmed programme title. -/
def resolvesEpisode (net : Net) (r : Row) (i s e : Nat) : Prop :=
  canonTitle r.programTitle ≠ [] ∧ canonTitle r.seasonTitle ≠ [] ∧
  search_tv_show net (canonTitle r.seasonTitle) = some i ∧
  dictGet (buildIndex net i) (normTitle (canonTitle r.programTitle)) = some (s, e)

instance (net : Net) (r : Row) (i s e : Nat) : Decidable (resolvesEpisode net r i s e) := by
  unfold resolvesEpisode
  exact inferInstance

def showRecIn (l : List OutRec) (i : Nat) : Prop :=
  ∃ r, r ∈ l ∧ r.media_type = Tier.tv ∧ r.media_id = i

def seasonRecIn (l : List OutRec) (i s : Nat) : Prop :=
  ∃ r, r ∈ l ∧ r.media_type = Tier.season ∧ r.media_id = i ∧ r.season_number = some s

/-- Auxiliary for `hierOrdered`: scanning from the left with accumulator
`seen`, every episode record must be preceded by a show record for its
show id and a season record for its (show id, season) pair. -/
def hierAux (seen : List OutRec) : List OutRec → Prop
  | [] => True
  | r :: rest =>
    (r.media_type = Tier.episode →
      showRecIn seen r.media_id ∧
      ∀ s, r.season_number = some s → seasonRecIn seen r.media_id s) ∧
    hierAux (seen ++ [r]) rest

/-- Hierarchical declaration order of the output record list. -/
def hierOrdered (l : List OutRec) : Prop := hierAux [] l

/-- Loop invariant of the resolution pipeline: cached indexes are exactly
the built ones, each emission set mirrors the emitted tier records with
multiplicity exactly one, and the output is hierarchically ordered. -/
structure PInv (net : Net) (st : PState) : Prop where
  cacheOK : ∀ tv_id idx, cacheGet st.cache tv_id = some idx → idx = buildIndex net tv_id
  showsOK : ∀ i, countTv st.yamtrack_rows i = if i ∈ st.processed_tv_shows then 1 else 0
  seasonsOK : ∀ i s, countSeason st.yamtrack_rows i s =
    if seasonKeyChars i s ∈ st.processed_seasons then 1 else 0
  hier : hierOrdered st.yamtrack_rows

/-- Failure modes of the HTTP layer: `requests.get` raising on a network
error, or `response.json()` raising on an unparsable body. -/
inductive NetFail
  | network
  | parse
deriving DecidableEq

/-- Fallible response table: each endpoint either raises or returns its
parsed JSON payload.  For the search endpoints the payload is the
optional `results` list (`none` when the field is missing). -/
structure FNet where
  tvResp : PyStr → Except NetFail (Option (List Nat))
  movieResp : PyStr → Except NetFail (Option (List Nat))
  showResp : Nat → Except NetFail (List Nat)
  seasonResp : Nat → Nat → Except NetFail (List Episode)

/-- `TMDBClient.search_movie` over the fallible HTTP layer: an exception
from `requests.get`/`.json()` propagates to the caller uncaught;
otherwise `results[0] if results else None` on `.get("results", [])`. -/
def search_movieE (net : FNet) (title : PyStr) : Except NetFail (Option Nat) :=
  match net.movieResp title with
  | Except.error e => Except.error e
  | Except.ok r => Except.ok (r.getD []).head?

def search_tv_showE (net : FNet) (show_name : PyStr) : Except NetFail (Option Nat) :=
  match net.tvResp show_name with
  | Except.error e => Except.error e
  | Except.ok r => Except.ok (r.getD []).head?

/-- The index build of `get_episode_info` over the fallible HTTP layer:
the show fetch and every season fetch can raise. -/
def buildIndexE (net : FNet) (tv_id : Nat) : Except NetFail EpIndex := do
  let seasons ← net.showResp tv_id
  seasons.foldlM
    (fun acc season_number => do
      let eps ← net.seasonResp tv_id season_number
      pure (acc ++ eps.map fun e => (normTitle e.name, (season_number, e.episode_number))))
    []

def get_episode_infoE (net : FNet) (c : Cache) (tv_id : Nat) (episode_title : PyStr) :
    Except NetFail (Option (Nat × Nat) × Cache) :=
  match cacheGet c tv_id with
  | some idx => Except.ok (dictGet idx (normTitle episode_title), c)
  | none =>
    match buildIndexE net tv_id with
    | Except.error e => Except.error e
    | Except.ok idx => Except.ok (dictGet idx (normTitle episode_title), (tv_id, idx) :: c)

/-- One loop iteration over the fallible HTTP layer: there is no
try/except around the row processing, so any exception raised by the
client propagates out of the loop. -/
def processRowE (net : FNet) (st : PState) (r : Row) : Except NetFail PState :=
  let program_title := canonTitle r.programTitle
  let season_title := canonTitle r.seasonTitle
  let dt := endDatetime r
  match classify program_title season_title with
  | RowClass.malformed =>
    Except.ok { st with diags := st.diags ++ [Diag.warnMissingEpisode season_title dt] }
  | RowClass.episodeRow =>
    match search_tv_showE net season_title with
    | Except.error e => Except.error e
    | Except.ok none =>
      Except.ok { st with requests := st.requests + 1,
                          diags := st.diags ++ [Diag.errShowNotFound season_title dt] }
    | Except.ok (some tv_id) =>
      match get_episode_infoE net st.cache tv_id program_title with
      | Except.error e => Except.error e
      | Except.ok (none, c') =>
        Except.ok { st with requests := st.requests + 1, cache := c',
                            diags := st.diags ++ [Diag.errEpisodeNotFound program_title season_title dt] }
      | Except.ok (some (season_number, episode_number), c') =>
        let showRecs := if tv_id ∈ st.processed_tv_shows then [] else [tvShowRec tv_id]
        let shows' := if tv_id ∈ st.processed_tv_shows then st.processed_tv_shows
                      else st.processed_tv_shows ++ [tv_id]
        let skey := seasonKeyChars tv_id season_number
        let seasonRecs := if skey ∈ st.processed_seasons then []
                          else [seasonRec tv_id season_number]
        let seasons' := if skey ∈ st.processed_seasons then st.processed_seasons
                        else st.processed_seasons ++ [skey]
        Except.ok
          { yamtrack_rows := st.yamtrack_rows ++ showRecs ++ seasonRecs ++
              [episodeRec tv_id season_number episode_number dt],
            processed_tv_shows := shows',
            processed_seasons := seasons',
            cache := c',
            diags := st.diags,
            requests := st.requests + 1 }
  | RowClass.movieRow =>
    match search_movieE net program_title with
    | Except.error e => Except.error e
    | Except.ok none =>
      Except.ok { st with requests := st.requests + 1,
                          diags := st.diags ++ [Diag.errMovieNotFound program_title dt] }
    | Except.ok (some movie_id) =>
      Except.ok { st with requests := st.requests + 1,
                          yamtrack_rows := st.yamtrack_rows ++ [movieRec movie_id dt] }
  | RowClass.noop => Except.ok st

def processRowsE (net : FNet) (st : PState) : List Row → Except NetFail PState
  | [] => Except.ok st
  | r :: rest =>
    match processRowE net st r with
    | Except.error e => Except.error e
    | Except.ok st' => processRowsE net st' rest

/-- The whole run over the fallible HTTP layer: an uncaught exception in
the loop aborts `process_disney_data` before the output file is written. -/
def process_disney_dataE (net : FNet) (input : Option (List Row)) :
    Except NetFail RunResult :=
  match input with
  | none => Except.ok ⟨["Error: file disney_plus_export.csv not found."], none, 0⟩
  | some rows =>
    match processRowsE net initState (prepRows rows) with
    | Except.error e => Except.error e
    | Except.ok st =>
      Except.ok
        ⟨["Done! Import file 'yamtrack_import.csv' was created. See errors at 'errors.log'."],
          some st.yamtrack_rows, st.requests⟩

theorem cacheGet_cons (tv_id : Nat) (idx : EpIndex) (c : Cache) (j : Nat) :
    cacheGet ((tv_id, idx) :: c) j = if tv_id = j then some idx else cacheGet c j := by
  by_cases h : tv_id = j
  · subst h
    unfold cacheGet
    rw [List.find?_cons_of_pos _ (by simp)]
    simp
  · unfold cacheGet
    rw [List.find?_cons_of_neg _ (by simp [h]), if_neg h]

theorem get_episode_info_hit {net : Net} {c : Cache} {tv_id : Nat} {idx : EpIndex}
    (h : cacheGet c tv_id = some idx) (t : PyStr) :
    get_episode_info net c tv_id t = ⟨dictGet idx (normTitle t), c, 0⟩ := by
  unfold get_episode_info
  rw [h]

theorem get_episode_info_miss {net : Net} {c : Cache} {tv_id : Nat}
    (h : cacheGet c tv_id = none) (t : PyStr) :
    get_episode_info net c tv_id t =
      ⟨dictGet (buildIndex net tv_id) (normTitle t), (tv_id, buildIndex net tv_id) :: c,
        1 + (net.tvSeasons tv_id).length⟩ := by
  unfold get_episode_info
  rw [h]

/-- C5: two episode-title queries whose stripped forms agree up to letter
case are looked up under the same normalised key, hence return the same
coordinate (or are both absent). -/
theorem get_episode_info_norm_invariant (net : Net) (c : Cache) (tv_id : Nat)
    (t1 t2 : PyStr) (h : pyLower (pyStrip t1) = pyLower (pyStrip t2)) :
    (get_episode_info net c tv_id t1).result = (get_episode_info net c tv_id t2).result := by
  have hn : normTitle t1 = normTitle t2 := by
    unfold normTitle
    rw [pyStrip_pyLower_comm, pyStrip_pyLower_comm, h]
  unfold get_episode_info
  cases cacheGet c tv_id with
  | none => simp [hn]
  | some idx => simp [hn]

theorem get_episode_info_norm_invariant_witness :
    pyLower (pyStrip [32, 80, 105, 108, 111, 116]) = pyLower (pyStrip [112, 73, 76, 79, 84]) ∧
    (get_episode_info ⟨fun _ => [], fun _ => [], fun _ => [], fun _ _ => []⟩ []
        7 [32, 80, 105, 108, 111, 116]).result =
      (get_episode_info ⟨fun _ => [], fun _ => [], fun _ => [], fun _ _ => []⟩ []
        7 [112, 73, 76, 79, 84]).result :=
  ⟨by decide,
   get_episode_info_norm_invariant _ _ 7 _ _ (by decide)⟩

/-- C6: on the first call for a show id the index is fetched (one show
request plus one request per season), stored, and consulted; any call
after that issues no requests, leaves the cache unchanged, and answers
from the index built on the first call. -/
theorem get_episode_info_builds_once (net : Net) (c : Cache) (tv_id : Nat)
    (t1 t2 : PyStr) (h : cacheGet c tv_id = none) :
    (get_episode_info net c tv_id t1).requests = 1 + (net.tvSeasons tv_id).length ∧
    (get_episode_info net c tv_id t1).result =
      dictGet (buildIndex net tv_id) (normTitle t1) ∧
    cacheGet (get_episode_info net c tv_id t1).cache tv_id = some (buildIndex net tv_id) ∧
    (get_episode_info net (get_episode_info net c tv_id t1).cache tv_id t2).requests = 0 ∧
    (get_episode_info net (get_episode_info net c tv_id t1).cache tv_id t2).cache =
      (get_episode_info net c tv_id t1).cache ∧
    (get_episode_info net (get_episode_info net c tv_id t1).cache tv_id t2).result =
      dictGet (buildIndex net tv_id) (normTitle t2) := by
  have h1 := @get_episode_info_miss net c tv_id h t1
  have hc : cacheGet (get_episode_info net c tv_id t1).cache tv_id =
      some (buildIndex net tv_id) := by
    rw [h1, cacheGet_cons]
    simp
  have h2 := @get_episode_info_hit net _ tv_id _ hc t2
  exact ⟨by rw [h1], by rw [h1], hc, by rw [h2], by rw [h2], by rw [h2]⟩

theorem get_episode_info_builds_once_witness :
    cacheGet ([] : Cache) 7 = none ∧
    (get_episode_info ⟨fun _ => [], fun _ => [], fun _ => [3], fun _ _ => []⟩ []
        7 [97]).requests = 2 := by
  have h := get_episode_info_builds_once
    ⟨fun _ => [], fun _ => [], fun _ => [3], fun _ _ => []⟩ [] 7 [97] [98] (by decide)
  refine ⟨by decide, ?_⟩
  rw [h.1]
  decide

theorem classify_malformed {pt st_ : PyStr} (hp : pt = []) (hs : st_ ≠ []) :
    classify pt st_ = RowClass.malformed := by
  simp [classify, hp, hs]

theorem classify_episodeRow {pt st_ : PyStr} (hp : pt ≠ []) (hs : st_ ≠ []) :
    classify pt st_ = RowClass.episodeRow := by
  simp [classify, hp, hs]

theorem classify_movieRow {pt st_ : PyStr} (hp : pt ≠ []) (hs : st_ = []) :
    classify pt st_ = RowClass.movieRow := by
  simp [classify, hp, hs]

theorem classify_noop {pt st_ : PyStr} (hp : pt = []) (hs : st_ = []) :
    classify pt st_ = RowClass.noop := by
  simp [classify, hp, hs]

theorem tsLt_tsLe_absurd {a b : Row} (h1 : tsLt a b) (h2 : tsLe b a) : False := by
  unfold tsLt at h1
  unfold tsLe at h2
  omega

theorem mem_of_mem_dropDupKeepLast {x : Row} :
    ∀ {l : List Row}, x ∈ dropDupKeepLast l → x ∈ l := by
  intro l
  induction l with
  | nil => intro h; exact absurd h (List.not_mem_nil x)
  | cons a t ih =>
    intro h
    unfold dropDupKeepLast at h
    split at h
    · exact List.mem_cons_of_mem a (ih h)
    · rcases List.mem_cons.mp h with h | h
      · exact h ▸ List.mem_cons_self a t
      · exact List.mem_cons_of_mem a (ih h)

theorem earlier_dropped_of_sorted {r1 r2 : Row} :
    ∀ {l : List Row}, l.Pairwise tsLe → r1 ∈ l → r2 ∈ l →
    rawKey r1 = rawKey r2 → tsLt r1 r2 → r1 ∉ dropDupKeepLast l := by
  intro l
  induction l with
  | nil => intro _ h1; exact absurd h1 (List.not_mem_nil r1)
  | cons a t ih =>
    intro hp h1 h2 hk hlt hmem
    rw [List.pairwise_cons] at hp
    obtain ⟨ha, hpt⟩ := hp
    unfold dropDupKeepLast at hmem
    split at hmem
    · have h1t : r1 ∈ t := mem_of_mem_dropDupKeepLast hmem
      have h2t : r2 ∈ t := by
        rcases List.mem_cons.mp h2 with h | h
        · exact (tsLt_tsLe_absurd hlt (h ▸ ha r1 h1t)).elim
        · exact h
      exact ih hpt h1t h2t hk hlt hmem
    · next hany =>
      rcases List.mem_cons.mp hmem with h | h
      · subst h
        rcases List.mem_cons.mp h2 with h | h
        · subst h
          unfold tsLt at hlt
          omega
        · exact hany (List.any_eq_true.mpr ⟨r2, h, by simp [hk]⟩)
      · have h1t : r1 ∈ dropDupKeepLast t := h
        have h1t' : r1 ∈ t := mem_of_mem_dropDupKeepLast h
        have h2t : r2 ∈ t := by
          rcases List.mem_cons.mp h2 with h' | h'
          · exact (tsLt_tsLe_absurd hlt (h' ▸ ha r1 h1t')).elim
          · exact h'
        exact ih hpt h1t' h2t hk hlt h1t

/-- C2: of two input rows sharing the raw `(Program Title, Season Title)`
pair, the one with the strictly earlier (end date, end time) timestamp is
removed by the sort-then-deduplicate stage and never reaches resolution. -/
theorem dedup_drops_earlier (rows : List Row) (r1 r2 : Row)
    (h1 : r1 ∈ rows) (h2 : r2 ∈ rows) (hk : rawKey r1 = rawKey r2)
    (hlt : tsLt r1 r2) : r1 ∉ prepRows rows := by
  unfold prepRows
  have hs : (sortRows rows).Pairwise tsLe := List.sorted_insertionSort tsLe rows
  have h1' : r1 ∈ sortRows rows := by
    unfold sortRows
    simpa using h1
  have h2' : r2 ∈ sortRows rows := by
    unfold sortRows
    simpa using h2
  exact earlier_dropped_of_sorted hs h1' h2' hk hlt

theorem dedup_drops_earlier_witness :
    tsLt ⟨some [97], some [98], 1, 1⟩ ⟨some [97], some [98], 2, 1⟩ ∧
    (⟨some [97], some [98], 1, 1⟩ : Row) ∉
      prepRows [⟨some [97], some [98], 1, 1⟩, ⟨some [97], some [98], 2, 1⟩] :=
  ⟨by decide,
   dedup_drops_earlier [⟨some [97], some [98], 1, 1⟩, ⟨some [97], some [98], 2, 1⟩]
     ⟨some [97], some [98], 1, 1⟩ ⟨some [97], some [98], 2, 1⟩
     (by decide) (by decide) (by decide) (by decide)⟩

theorem dropDupKeepLast_pair {a b : Row} (h : rawKey b ≠ rawKey a) :
    dropDupKeepLast [a, b] = [a, b] := by
  simp [dropDupKeepLast, h]

/-- C10: deduplication keys on the raw, untrimmed title columns — two
rows with equal canonical (trimmed) titles but different raw keys are not
collapsed: both survive deduplication and reach resolution as separate
events. -/
theorem dedup_raw_not_canonical (r1 r2 : Row)
    (hc1 : canonTitle r1.programTitle = canonTitle r2.programTitle)
    (hc2 : canonTitle r1.seasonTitle = canonTitle r2.seasonTitle)
    (hraw : rawKey r1 ≠ rawKey r2) :
    r1 ∈ prepRows [r1, r2] ∧ r2 ∈ prepRows [r1, r2] ∧ (prepRows [r1, r2]).length = 2 := by
  have hsort : sortRows [r1, r2] = [r1, r2] ∨ sortRows [r1, r2] = [r2, r1] := by
    unfold sortRows
    by_cases h : tsLe r1 r2
    · left
      simp [List.insertionSort, List.orderedInsert, h]
    · right
      simp [List.insertionSort, List.orderedInsert, h]
  unfold prepRows
  rcases hsort with h | h
  · rw [h, dropDupKeepLast_pair (fun he => hraw he.symm)]
    exact ⟨by simp, by simp, rfl⟩
  · rw [h, dropDupKeepLast_pair hraw]
    exact ⟨by simp, by simp, rfl⟩

theorem dedup_raw_not_canonical_witness :
    canonTitle (some [97, 32]) = canonTitle (some [97]) ∧
    rawKey (⟨some [97, 32], some [98], 1, 1⟩ : Row) ≠ rawKey ⟨some [97], some [98], 2, 2⟩ ∧
    (⟨some [97, 32], some [98], 1, 1⟩ : Row) ∈
      prepRows [⟨some [97, 32], some [98], 1, 1⟩, ⟨some [97], some [98], 2, 2⟩] ∧
    (⟨some [97], some [98], 2, 2⟩ : Row) ∈
      prepRows [⟨some [97, 32], some [98], 1, 1⟩, ⟨some [97], some [98], 2, 2⟩] :=
  ⟨by decide, by decide,
   (dedup_raw_not_canonical _ _ (by decide) (by decide) (by decide)).1,
   (dedup_raw_not_canonical _ _ (by decide) (by decide) (by decide)).2.1⟩

/-- C4: the classification by canonical-title emptiness is mutually
exclusive and jointly exhaustive over malformed / episode / movie / no-op,
and a row with both titles empty leaves the loop state untouched: no
output record and no diagnostic. -/
theorem classification_complete (program_title season_title : PyStr) :
    (classify program_title season_title = RowClass.malformed ↔
      program_title = [] ∧ season_title ≠ []) ∧
    (classify program_title season_title = RowClass.episodeRow ↔
      program_title ≠ [] ∧ season_title ≠ []) ∧
    (classify program_title season_title = RowClass.movieRow ↔
      program_title ≠ [] ∧ season_title = []) ∧
    (classify program_title season_title = RowClass.noop ↔
      program_title = [] ∧ season_title = []) ∧
    (∀ (net : Net) (st : PState) (r : Row),
      canonTitle r.programTitle = [] → canonTitle r.seasonTitle = [] →
      processRow net st r = st) := by
  refine ⟨?_, ?_, ?_, ?_, ?_⟩
  · by_cases hp : program_title = [] <;> by_cases hs : season_title = [] <;>
      simp [classify, hp, hs]
  · by_cases hp : program_title = [] <;> by_cases hs : season_title = [] <;>
      simp [classify, hp, hs]
  · by_cases hp : program_title = [] <;> by_cases hs : season_title = [] <;>
      simp [classify, hp, hs]
  · by_cases hp : program_title = [] <;> by_cases hs : season_title = [] <;>
      simp [classify, hp, hs]
  · intro net st r hp hs
    simp [processRow, classify_noop hp hs]

theorem classification_complete_witness :
    classify [] [] = RowClass.noop ∧
    processRow ⟨fun _ => [], fun _ => [], fun _ => [], fun _ _ => []⟩ initState
      ⟨none, none, 1, 1⟩ = initState :=
  ⟨((classification_complete [] []).2.2.2.1).mpr ⟨rfl, rfl⟩,
   (classification_complete [] []).2.2.2.2 _ initState ⟨none, none, 1, 1⟩ (by decide) (by decide)⟩

/-- C8: with the input file absent, the run prints a console error and
returns before any processing: no HTTP request is made and no output
file is written. -/
theorem missing_input_aborts (net : Net) :
    (process_disney_data net none).output = none ∧
    (process_disney_data net none).requests = 0 ∧
    (process_disney_data net none).console =
      ["Error: file disney_plus_export.csv not found."] :=
  ⟨rfl, rfl, rfl⟩

theorem natChars_ne_naChars (n : Nat) : natChars n ≠ naChars := by
  intro h
  have h60 : (60 : Nat) ∈ natChars n := by
    rw [h]
    simp [naChars]
  have := natChars_digits n 60 h60
  omega

/-- C9: a rendered `season_number`/`episode_number` field is either a
decimal integer string or empty; the internal `"<NA>"` placeholder never
survives to a written row, and a filled-in empty-string column cell also
renders empty. -/
theorem rendered_fields_decimal_or_empty (r : OutRec) :
    (renderNumField (seasonCell r) = [] ∨
      ∃ n, r.season_number = some n ∧ renderNumField (seasonCell r) = natChars n) ∧
    renderNumField (seasonCell r) ≠ naChars ∧
    (renderNumField (episodeCell r) = [] ∨
      ∃ n, r.episode_number = some n ∧ renderNumField (episodeCell r) = natChars n) ∧
    renderNumField (episodeCell r) ≠ naChars ∧
    renderNumField (Cell.str []) = [] := by
  have hnum : ∀ n : Nat, renderNumField (Cell.num n) = natChars n := by
    intro n
    unfold renderNumField toNumericCell
    simp [natChars_ne_naChars n]
  have hna : renderNumField Cell.na = [] := by
    unfold renderNumField toNumericCell
    simp [naChars]
  have hnil_ne : ([] : PyStr) ≠ naChars := by decide
  refine ⟨?_, ?_, ?_, ?_, by decide⟩
  · cases hsn : r.season_number with
    | none => left; unfold seasonCell; rw [hsn]; exact hna
    | some n => right; exact ⟨n, rfl, by unfold seasonCell; rw [hsn]; exact hnum n⟩
  · cases hsn : r.season_number with
    | none => unfold seasonCell; rw [hsn, hna]; exact hnil_ne
    | some n => unfold seasonCell; rw [hsn, hnum n]; exact natChars_ne_naChars n
  · cases hsn : r.episode_number with
    | none => left; unfold episodeCell; rw [hsn]; exact hna
    | some n => right; exact ⟨n, rfl, by unfold episodeCell; rw [hsn]; exact hnum n⟩
  · cases hsn : r.episode_number with
    | none => unfold episodeCell; rw [hsn, hna]; exact hnil_ne
    | some n => unfold episodeCell; rw [hsn, hnum n]; exact natChars_ne_naChars n

/-- C7 as stated is false: a network-level failure in a catalog search is
not downgraded to a diagnostic plus a skip — the exception propagates
past the resolution pipeline and aborts the whole run. -/
theorem network_failure_propagates_counterexample :
    process_disney_dataE
      ⟨fun _ => Except.ok none, fun _ => Except.error NetFail.network,
        fun _ => Except.ok [], fun _ _ => Except.ok []⟩
      (some [⟨some [97], none, 1, 1⟩]) = Except.error NetFail.network := by
  rfl

/-- C7 amended: a response that parses but carries no results yields
absent with no error signal (conflated with not-found; the pipeline logs
it as such and skips), while a network/parse exception propagates
uncaught past the resolution pipeline. -/
theorem failure_handling_amended (fnet : FNet) (t : PyStr) (e : NetFail) :
    (fnet.movieResp t = Except.error e → search_movieE fnet t = Except.error e) ∧
    (fnet.movieResp t = Except.ok none → search_movieE fnet t = Except.ok none) ∧
    (fnet.tvResp t = Except.error e → search_tv_showE fnet t = Except.error e) ∧
    (∀ (st : PState) (r : Row), canonTitle r.programTitle ≠ [] →
      canonTitle r.seasonTitle = [] →
      fnet.movieResp (canonTitle r.programTitle) = Except.error e →
      processRowE fnet st r = Except.error e) ∧
    (∀ (st : PState) (r : Row), canonTitle r.programTitle ≠ [] →
      canonTitle r.seasonTitle = [] →
      fnet.movieResp (canonTitle r.programTitle) = Except.ok none →
      processRowE fnet st r =
        Except.ok
          { st with
            requests := st.requests + 1
            diags := st.diags ++
              [Diag.errMovieNotFound (canonTitle r.programTitle) (endDatetime r)] }) := by
  refine ⟨?_, ?_, ?_, ?_, ?_⟩
  · intro h
    unfold search_movieE
    rw [h]
  · intro h
    unfold search_movieE
    rw [h]
    rfl
  · intro h
    unfold search_tv_showE
    rw [h]
  · intro st r hp hs hresp
    have hm : search_movieE fnet (canonTitle r.programTitle) = Except.error e := by
      unfold search_movieE
      rw [hresp]
    simp [processRowE, classify_movieRow hp hs, hm]
  · intro st r hp hs hresp
    have hm : search_movieE fnet (canonTitle r.programTitle) = Except.ok none := by
      unfold search_movieE
      rw [hresp]
      rfl
    simp [processRowE, classify_movieRow hp hs, hm]

theorem failure_handling_amended_witness :
    search_movieE
      ⟨fun _ => Except.ok none, fun _ => Except.error NetFail.network,
        fun _ => Except.ok [], fun _ _ => Except.ok []⟩ [97] =
      Except.error NetFail.network ∧
    search_movieE
      ⟨fun _ => Except.ok none, fun _ => Except.ok none,
        fun _ => Except.ok [], fun _ _ => Except.ok []⟩ [97] =
      Except.ok none :=
  ⟨(failure_handling_amended _ [97] NetFail.network).1 rfl,
   (failure_handling_amended _ [97] NetFail.network).2.1 rfl⟩

theorem processRow_noop_eq {net : Net} {st : PState} {r : Row}
    (h : classify (canonTitle r.programTitle) (canonTitle r.seasonTitle) = RowClass.noop) :
    processRow net st r = st := by
  simp [processRow, h]

theorem processRow_malformed_eq {net : Net} {st : PState} {r : Row}
    (h : classify (canonTitle r.programTitle) (canonTitle r.seasonTitle) = RowClass.malformed) :
    processRow net st r =
      { st with diags := st.diags ++
          [Diag.warnMissingEpisode (canonTitle r.seasonTitle) (endDatetime r)] } := by
  simp [processRow, h]

theorem processRow_showNotFound_eq {net : Net} {st : PState} {r : Row}
    (h : classify (canonTitle r.programTitle) (canonTitle r.seasonTitle) = RowClass.episodeRow)
    (hse : search_tv_show net (canonTitle r.seasonTitle) = none) :
    processRow net st r =
      { st with requests := st.requests + 1,
                diags := st.diags ++
                  [Diag.errShowNotFound (canonTitle r.seasonTitle) (endDatetime r)] } := by
  simp [processRow, h, hse]

theorem processRow_epNotFound_eq {net : Net} {st : PState} {r : Row} {tv_id : Nat}
    (h : classify (canonTitle r.programTitle) (canonTitle r.seasonTitle) = RowClass.episodeRow)
    (hse : search_tv_show net (canonTitle r.seasonTitle) = some tv_id)
    (hres : (get_episode_info net st.cache tv_id (canonTitle r.programTitle)).result = none) :
    processRow net st r =
      { st with
        requests := st.requests + 1 +
          (get_episode_info net st.cache tv_id (canonTitle r.programTitle)).requests,
        cache := (get_episode_info net st.cache tv_id (canonTitle r.programTitle)).cache,
        diags := st.diags ++
          [Diag.errEpisodeNotFound (canonTitle r.programTitle) (canonTitle r.seasonTitle)
            (endDatetime r)] } := by
  simp [processRow, h, hse, hres]

theorem processRow_found_eq {net : Net} {st : PState} {r : Row} {tv_id sn en : Nat}
    (h : classify (canonTitle r.programTitle) (canonTitle r.seasonTitle) = RowClass.episodeRow)
    (hse : search_tv_show net (canonTitle r.seasonTitle) = some tv_id)
    (hres : (get_episode_info net st.cache tv_id (canonTitle r.programTitle)).result =
      some (sn, en)) :
    processRow net st r =
      { yamtrack_rows := st.yamtrack_rows ++
          (if tv_id ∈ st.processed_tv_shows then [] else [tvShowRec tv_id]) ++
          (if seasonKeyChars tv_id sn ∈ st.processed_seasons then []
           else [seasonRec tv_id sn]) ++
          [episodeRec tv_id sn en (endDatetime r)],
        processed_tv_shows := if tv_id ∈ st.processed_tv_shows then st.processed_tv_shows
                              else st.processed_tv_shows ++ [tv_id],
        processed_seasons := if seasonKeyChars tv_id sn ∈ st.processed_seasons
                             then st.processed_seasons
                             else st.processed_seasons ++ [seasonKeyChars tv_id sn],
        cache := (get_episode_info net st.cache tv_id (canonTitle r.programTitle)).cache,
        diags := st.diags,
        requests := st.requests + 1 +
          (get_episode_info net st.cache tv_id (canonTitle r.programTitle)).requests } := by
  simp [processRow, h, hse, hres]

theorem processRow_movieNotFound_eq {net : Net} {st : PState} {r : Row}
    (h : classify (canonTitle r.programTitle) (canonTitle r.seasonTitle) = RowClass.movieRow)
    (hse : search_movie net (canonTitle r.programTitle) = none) :
    processRow net st r =
      { st with requests := st.requests + 1,
                diags := st.diags ++
                  [Diag.errMovieNotFound (canonTitle r.programTitle) (endDatetime r)] } := by
  simp [processRow, h, hse]

theorem processRow_movieFound_eq {net : Net} {st : PState} {r : Row} {movie_id : Nat}
    (h : classify (canonTitle r.programTitle) (canonTitle r.seasonTitle) = RowClass.movieRow)
    (hse : search_movie net (canonTitle r.programTitle) = some movie_id) :
    processRow net st r =
      { st with requests := st.requests + 1,
                yamtrack_rows := st.yamtrack_rows ++
                  [movieRec movie_id (endDatetime r)] } := by
  simp [processRow, h, hse]

theorem countTv_append (l1 l2 : List OutRec) (i : Nat) :
    countTv (l1 ++ l2) i = countTv l1 i + countTv l2 i := by
  simp [countTv]

theorem countSeason_append (l1 l2 : List OutRec) (i s : Nat) :
    countSeason (l1 ++ l2) i s = countSeason l1 i s + countSeason l2 i s := by
  simp [countSeason]

theorem countTv_tvShowRec (j i : Nat) :
    countTv [tvShowRec j] i = if j = i then 1 else 0 := by
  by_cases h : j = i <;>
    simp [countTv, tvShowRec, isTvRecFor, List.countP_cons, h]

theorem countTv_seasonRec (j s i : Nat) : countTv [seasonRec j s] i = 0 := by
  simp [countTv, seasonRec, isTvRecFor, List.countP_cons]

theorem countTv_episodeRec (j s e : Nat) (dt : PyStr) (i : Nat) :
    countTv [episodeRec j s e dt] i = 0 := by
  simp [countTv, episodeRec, isTvRecFor, List.countP_cons]

theorem countTv_movieRec (j : Nat) (dt : PyStr) (i : Nat) :
    countTv [movieRec j dt] i = 0 := by
  simp [countTv, movieRec, isTvRecFor, List.countP_cons]

theorem countSeason_tvShowRec (j i s : Nat) : countSeason [tvShowRec j] i s = 0 := by
  simp [countSeason, tvShowRec, isSeasonRecFor, List.countP_cons]

theorem countSeason_seasonRec (j s' i s : Nat) :
    countSeason [seasonRec j s'] i s = if j = i ∧ s' = s then 1 else 0 := by
  by_cases h : j = i ∧ s' = s
  · simp [countSeason, seasonRec, isSeasonRecFor, List.countP_cons, h.1, h.2]
  · rw [if_neg h]
    simp only [countSeason, isSeasonRecFor, seasonRec, List.countP_cons, List.countP_nil]
    rw [if_neg]
    intro hc
    have hd := of_decide_eq_true hc
    exact h ⟨hd.2.1, Option.some.inj hd.2.2⟩

theorem countSeason_episodeRec (j s' e : Nat) (dt : PyStr) (i s : Nat) :
    countSeason [episodeRec j s' e dt] i s = 0 := by
  simp [countSeason, episodeRec, isSeasonRecFor, List.countP_cons]

theorem countSeason_movieRec (j : Nat) (dt : PyStr) (i s : Nat) :
    countSeason [movieRec j dt] i s = 0 := by
  simp [countSeason, movieRec, isSeasonRecFor, List.countP_cons]

theorem showRecIn_of_countTv_pos {l : List OutRec} {i : Nat}
    (h : 0 < countTv l i) : showRecIn l i := by
  obtain ⟨r, hm, hp⟩ := List.countP_pos_iff.mp h
  have hd := of_decide_eq_true hp
  exact ⟨r, hm, hd.1, hd.2⟩

theorem seasonRecIn_of_countSeason_pos {l : List OutRec} {i s : Nat}
    (h : 0 < countSeason l i s) : seasonRecIn l i s := by
  obtain ⟨r, hm, hp⟩ := List.countP_pos_iff.mp h
  have hd := of_decide_eq_true hp
  exact ⟨r, hm, hd.1, hd.2.1, hd.2.2⟩

theorem showRecIn_append_left {l1 l2 : List OutRec} {i : Nat} (h : showRecIn l1 i) :
    showRecIn (l1 ++ l2) i := by
  obtain ⟨r, hm, h1, h2⟩ := h
  exact ⟨r, List.mem_append_left _ hm, h1, h2⟩

theorem seasonRecIn_append_left {l1 l2 : List OutRec} {i s : Nat} (h : seasonRecIn l1 i s) :
    seasonRecIn (l1 ++ l2) i s := by
  obtain ⟨r, hm, h1, h2, h3⟩ := h
  exact ⟨r, List.mem_append_left _ hm, h1, h2, h3⟩

theorem hierAux_append (l1 l2 : List OutRec) :
    ∀ seen, hierAux seen (l1 ++ l2) ↔ hierAux seen l1 ∧ hierAux (seen ++ l1) l2 := by
  induction l1 with
  | nil =>
    intro seen
    simp [hierAux]
  | cons r t ih =>
    intro seen
    rw [List.cons_append]
    simp only [hierAux]
    rw [ih (seen ++ [r]), List.append_assoc, List.singleton_append, and_assoc]

theorem hierAux_nonepisode (seen : List OutRec) {r : OutRec}
    (h : r.media_type ≠ Tier.episode) : hierAux seen [r] := by
  simp only [hierAux]
  exact ⟨fun he => absurd he h, trivial⟩

theorem countTv_nil (i : Nat) : countTv [] i = 0 := rfl

theorem countSeason_nil (i s : Nat) : countSeason [] i s = 0 := rfl

theorem hierAux_nil (seen : List OutRec) : hierAux seen [] := trivial

theorem seasonKeyChars_ne {i s tv sn : Nat} (h : ¬(tv = i ∧ sn = s)) :
    seasonKeyChars i s ≠ seasonKeyChars tv sn := by
  intro he
  obtain ⟨h1, h2⟩ := seasonKeyChars_inj he
  exact h ⟨h1.symm, h2.symm⟩

theorem get_episode_info_cacheOK {net : Net} {c : Cache}
    (hc : ∀ tv idx, cacheGet c tv = some idx → idx = buildIndex net tv)
    (tv_id : Nat) (t : PyStr) :
    ∀ tv idx, cacheGet (get_episode_info net c tv_id t).cache tv = some idx →
      idx = buildIndex net tv := by
  intro tv idx h
  cases hg : cacheGet c tv_id with
  | some i0 =>
    rw [get_episode_info_hit hg] at h
    exact hc tv idx h
  | none =>
    rw [@get_episode_info_miss net c tv_id hg t] at h
    rw [cacheGet_cons] at h
    split at h
    · next he =>
      cases h
      rw [← he]
    · exact hc tv idx h

theorem get_episode_info_result_eq {net : Net} {c : Cache}
    (hc : ∀ tv idx, cacheGet c tv = some idx → idx = buildIndex net tv)
    (tv_id : Nat) (t : PyStr) :
    (get_episode_info net c tv_id t).result = dictGet (buildIndex net tv_id) (normTitle t) := by
  cases hg : cacheGet c tv_id with
  | some i0 =>
    rw [get_episode_info_hit hg]
    rw [hc tv_id i0 hg]
  | none =>
    rw [@get_episode_info_miss net c tv_id hg t]

theorem processRow_inv {net : Net} {st : PState} (r : Row) (h : PInv net st) :
    PInv net (processRow net st r) := by
  cases hcl : classify (canonTitle r.programTitle) (canonTitle r.seasonTitle) with
  | malformed =>
    rw [processRow_malformed_eq hcl]
    exact ⟨h.cacheOK, h.showsOK, h.seasonsOK, h.hier⟩
  | noop =>
    rw [processRow_noop_eq hcl]
    exact h
  | movieRow =>
    cases hse : search_movie net (canonTitle r.programTitle) with
    | none =>
      rw [processRow_movieNotFound_eq hcl hse]
      exact ⟨h.cacheOK, h.showsOK, h.seasonsOK, h.hier⟩
    | some movie_id =>
      rw [processRow_movieFound_eq hcl hse]
      refine ⟨h.cacheOK, ?_, ?_, ?_⟩
      all_goals dsimp only
      · intro i
        rw [countTv_append, countTv_movieRec]
        rw [h.showsOK i]
        omega
      · intro i s
        rw [countSeason_append, countSeason_movieRec]
        rw [h.seasonsOK i s]
        omega
      · show hierAux [] (st.yamtrack_rows ++ [movieRec movie_id (endDatetime r)])
        rw [hierAux_append]
        exact ⟨h.hier, hierAux_nonepisode _ (fun he => Tier.noConfusion he)⟩
  | episodeRow =>
    cases hse : search_tv_show net (canonTitle r.seasonTitle) with
    | none =>
      rw [processRow_showNotFound_eq hcl hse]
      exact ⟨h.cacheOK, h.showsOK, h.seasonsOK, h.hier⟩
    | some tv_id =>
      cases hres : (get_episode_info net st.cache tv_id (canonTitle r.programTitle)).result with
      | none =>
        rw [processRow_epNotFound_eq hcl hse hres]
        exact ⟨get_episode_info_cacheOK h.cacheOK tv_id _, h.showsOK, h.seasonsOK, h.hier⟩
      | some p =>
        obtain ⟨sn, en⟩ := p
        rw [processRow_found_eq hcl hse hres]
        refine ⟨get_episode_info_cacheOK h.cacheOK tv_id _, ?_, ?_, ?_⟩
        all_goals dsimp only
        · intro i
          rw [countTv_append, countTv_append, countTv_append, countTv_episodeRec]
          have hB : countTv (if seasonKeyChars tv_id sn ∈ st.processed_seasons then []
              else [seasonRec tv_id sn]) i = 0 := by
            split
            · rfl
            · exact countTv_seasonRec tv_id sn i
          rw [hB]
          by_cases htv : tv_id ∈ st.processed_tv_shows
          · rw [if_pos htv, if_pos htv, countTv_nil, h.showsOK i]
            omega
          · rw [if_neg htv, if_neg htv, countTv_tvShowRec, h.showsOK i]
            by_cases hi : tv_id = i
            · subst hi
              rw [if_neg htv, if_pos (show tv_id = tv_id from rfl),
                if_pos (List.mem_append_right _ (List.mem_singleton_self _))]
            · rw [if_neg hi]
              have hmem : (i ∈ st.processed_tv_shows ++ [tv_id]) ↔
                  i ∈ st.processed_tv_shows := by
                rw [List.mem_append, List.mem_singleton]
                constructor
                · intro hh
                  rcases hh with hh | hh
                  · exact hh
                  · exact absurd hh.symm hi
                · intro hh
                  exact Or.inl hh
              by_cases hm : i ∈ st.processed_tv_shows
              · rw [if_pos hm, if_pos (hmem.mpr hm)]
              · rw [if_neg hm, if_neg (fun hh => hm (hmem.mp hh))]
        · intro i s
          rw [countSeason_append, countSeason_append, countSeason_append,
            countSeason_episodeRec]
          have hA : countSeason (if tv_id ∈ st.processed_tv_shows then []
              else [tvShowRec tv_id]) i s = 0 := by
            split
            · rfl
            · exact countSeason_tvShowRec tv_id i s
          rw [hA]
          by_cases hsk : seasonKeyChars tv_id sn ∈ st.processed_seasons
          · rw [if_pos hsk, if_pos hsk, countSeason_nil, h.seasonsOK i s]
            omega
          · rw [if_neg hsk, if_neg hsk, countSeason_seasonRec, h.seasonsOK i s]
            by_cases hp : tv_id = i ∧ sn = s
            · obtain ⟨hp1, hp2⟩ := hp
              subst hp1
              subst hp2
              rw [if_neg hsk, if_pos (show tv_id = tv_id ∧ sn = sn from ⟨rfl, rfl⟩),
                if_pos (List.mem_append_right _ (List.mem_singleton_self _))]
            · rw [if_neg hp]
              have hne := seasonKeyChars_ne hp
              have hmem : (seasonKeyChars i s ∈
                  st.processed_seasons ++ [seasonKeyChars tv_id sn]) ↔
                  seasonKeyChars i s ∈ st.processed_seasons := by
                rw [List.mem_append, List.mem_singleton]
                constructor
                · intro hh
                  rcases hh with hh | hh
                  · exact hh
                  · exact absurd hh hne
                · intro hh
                  exact Or.inl hh
              by_cases hm : seasonKeyChars i s ∈ st.processed_seasons
              · rw [if_pos hm, if_pos (hmem.mpr hm)]
              · rw [if_neg hm, if_neg (fun hh => hm (hmem.mp hh))]
        · unfold hierOrdered
          rw [hierAux_append, hierAux_append, hierAux_append]
          simp only [List.nil_append]
          refine ⟨⟨⟨h.hier, ?_⟩, ?_⟩, ?_⟩
          · by_cases htv : tv_id ∈ st.processed_tv_shows
            · rw [if_pos htv]
              exact hierAux_nil _
            · rw [if_neg htv]
              exact hierAux_nonepisode _ (fun he => Tier.noConfusion he)
          · by_cases hsk : seasonKeyChars tv_id sn ∈ st.processed_seasons
            · rw [if_pos hsk]
              exact hierAux_nil _
            · rw [if_neg hsk]
              exact hierAux_nonepisode _ (fun he => Tier.noConfusion he)
          · simp only [hierAux]
            refine ⟨fun _ => ⟨?_, ?_⟩, trivial⟩
            · show showRecIn (st.yamtrack_rows ++
                  (if tv_id ∈ st.processed_tv_shows then [] else [tvShowRec tv_id]) ++
                  (if seasonKeyChars tv_id sn ∈ st.processed_seasons then []
                   else [seasonRec tv_id sn]))
                  (episodeRec tv_id sn en (endDatetime r)).media_id
              by_cases htv : tv_id ∈ st.processed_tv_shows
              · have hcount : 0 < countTv st.yamtrack_rows tv_id := by
                  rw [h.showsOK tv_id, if_pos htv]
                  omega
                exact showRecIn_append_left (showRecIn_append_left
                  (showRecIn_of_countTv_pos hcount))
              · rw [if_neg htv]
                exact showRecIn_append_left
                  ⟨tvShowRec tv_id,
                    List.mem_append_right _ (List.mem_singleton_self _), rfl, rfl⟩
            · intro s' hs'
              have hsn : sn = s' := Option.some.inj hs'
              subst hsn
              show seasonRecIn (st.yamtrack_rows ++
                  (if tv_id ∈ st.processed_tv_shows then [] else [tvShowRec tv_id]) ++
                  (if seasonKeyChars tv_id sn ∈ st.processed_seasons then []
                   else [seasonRec tv_id sn]))
                  (episodeRec tv_id sn en (endDatetime r)).media_id sn
              by_cases hsk : seasonKeyChars tv_id sn ∈ st.processed_seasons
              · have hcount : 0 < countSeason st.yamtrack_rows tv_id sn := by
                  rw [h.seasonsOK tv_id sn, if_pos hsk]
                  omega
                exact seasonRecIn_append_left (seasonRecIn_append_left
                  (seasonRecIn_of_countSeason_pos hcount))
              · rw [if_neg hsk]
                exact ⟨seasonRec tv_id sn,
                  List.mem_append_right _ (List.mem_singleton_self _), rfl, rfl, rfl⟩

theorem processRows_inv {net : Net} (l : List Row) :
    ∀ st : PState, PInv net st → PInv net (processRows net st l) := by
  induction l with
  | nil =>
    intro st h
    exact h
  | cons a rest ih =>
    intro st h
    exact ih (processRow net st a) (processRow_inv a h)

theorem processRow_sets_mono {net : Net} {st : PState} (r : Row) :
    (∀ i, i ∈ st.processed_tv_shows → i ∈ (processRow net st r).processed_tv_shows) ∧
    (∀ k, k ∈ st.processed_seasons → k ∈ (processRow net st r).processed_seasons) := by
  cases hcl : classify (canonTitle r.programTitle) (canonTitle r.seasonTitle) with
  | malformed =>
    rw [processRow_malformed_eq hcl]
    exact ⟨fun i h => h, fun k h => h⟩
  | noop =>
    rw [processRow_noop_eq hcl]
    exact ⟨fun i h => h, fun k h => h⟩
  | movieRow =>
    cases hse : search_movie net (canonTitle r.programTitle) with
    | none =>
      rw [processRow_movieNotFound_eq hcl hse]
      exact ⟨fun i h => h, fun k h => h⟩
    | some m =>
      rw [processRow_movieFound_eq hcl hse]
      exact ⟨fun i h => h, fun k h => h⟩
  | episodeRow =>
    cases hse : search_tv_show net (canonTitle r.seasonTitle) with
    | none =>
      rw [processRow_showNotFound_eq hcl hse]
      exact ⟨fun i h => h, fun k h => h⟩
    | some tv_id =>
      cases hres : (get_episode_info net st.cache tv_id (canonTitle r.programTitle)).result with
      | none =>
        rw [processRow_epNotFound_eq hcl hse hres]
        exact ⟨fun i h => h, fun k h => h⟩
      | some p =>
        obtain ⟨sn, en⟩ := p
        rw [processRow_found_eq hcl hse hres]
        dsimp only
        constructor
        · intro i h
          split
          · exact h
          · exact List.mem_append_left _ h
        · intro k h
          split
          · exact h
          · exact List.mem_append_left _ h

theorem processRows_sets_mono {net : Net} (l : List Row) :
    ∀ st : PState,
      (∀ i, i ∈ st.processed_tv_shows → i ∈ (processRows net st l).processed_tv_shows) ∧
      (∀ k, k ∈ st.processed_seasons → k ∈ (processRows net st l).processed_seasons) := by
  induction l with
  | nil =>
    intro st
    exact ⟨fun i h => h, fun k h => h⟩
  | cons a rest ih =>
    intro st
    constructor
    · intro i h
      exact (ih (processRow net st a)).1 i ((processRow_sets_mono a).1 i h)
    · intro k h
      exact (ih (processRow net st a)).2 k ((processRow_sets_mono a).2 k h)

theorem processRow_resolved {net : Net} {st : PState} {r : Row} {i s e : Nat}
    (hcache : ∀ tv idx, cacheGet st.cache tv = some idx → idx = buildIndex net tv)
    (hres : resolvesEpisode net r i s e) :
    i ∈ (processRow net st r).processed_tv_shows ∧
    seasonKeyChars i s ∈ (processRow net st r).processed_seasons := by
  obtain ⟨hp, hs, hse, hdict⟩ := hres
  have hcl := classify_episodeRow hp hs
  have hr : (get_episode_info net st.cache i (canonTitle r.programTitle)).result =
      some (s, e) := by
    rw [get_episode_info_result_eq hcache]
    exact hdict
  rw [processRow_found_eq hcl hse hr]
  dsimp only
  constructor
  · split
    · next hmem => exact hmem
    · exact List.mem_append_right _ (List.mem_singleton_self _)
  · split
    · next hmem => exact hmem
    · exact List.mem_append_right _ (List.mem_singleton_self _)

theorem processRows_resolved {net : Net} (l : List Row) :
    ∀ st : PState, PInv net st → ∀ r ∈ l, ∀ i s e, resolvesEpisode net r i s e →
      i ∈ (processRows net st l).processed_tv_shows ∧
      seasonKeyChars i s ∈ (processRows net st l).processed_seasons := by
  induction l with
  | nil =>
    intro st _ r hr
    exact absurd hr (List.not_mem_nil r)
  | cons a rest ih =>
    intro st hinv r hr i s e hres
    rcases List.mem_cons.mp hr with hh | hh
    · subst hh
      have h1 := processRow_resolved hinv.cacheOK hres
      exact ⟨(processRows_sets_mono rest (processRow net st r)).1 i h1.1,
             (processRows_sets_mono rest (processRow net st r)).2 _ h1.2⟩
    · exact ih (processRow net st a) (processRow_inv a hinv) r hh i s e hres

theorem PInv_initState (net : Net) : PInv net initState := by
  refine ⟨?_, ?_, ?_, trivial⟩
  · intro tv idx h
    simp [initState, cacheGet] at h
  · intro i
    simp [initState, countTv]
  · intro i s
    simp [initState, countSeason]

/-- C1: if some prepared row fully resolves to show `i` and season `s`,
the output holds exactly one show-tier record for `i` and exactly one
season-tier record for `(i, s)`; globally every show id and (show id,
season) pair has at most one record of its tier — the emission sets
`processed_tv_shows`/`processed_seasons` enforce this for the whole run,
however many episode rows reference the same show. -/
theorem tier_emitted_exactly_once (net : Net) (rows : List Row) (r : Row) (i s e : Nat)
    (hr : r ∈ prepRows rows) (hres : resolvesEpisode net r i s e) :
    countTv (processRows net initState (prepRows rows)).yamtrack_rows i = 1 ∧
    countSeason (processRows net initState (prepRows rows)).yamtrack_rows i s = 1 ∧
    (∀ j, countTv (processRows net initState (prepRows rows)).yamtrack_rows j ≤ 1) ∧
    (∀ j s', countSeason (processRows net initState (prepRows rows)).yamtrack_rows j s' ≤ 1) := by
  have hinv := processRows_inv (prepRows rows) initState (PInv_initState net)
  have hmem := processRows_resolved (prepRows rows) initState (PInv_initState net)
    r hr i s e hres
  refine ⟨?_, ?_, ?_, ?_⟩
  · rw [hinv.showsOK i, if_pos hmem.1]
  · rw [hinv.seasonsOK i s, if_pos hmem.2]
  · intro j
    rw [hinv.showsOK j]
    split <;> omega
  · intro j s'
    rw [hinv.seasonsOK j s']
    split <;> omega

theorem tier_emitted_exactly_once_witness :
    countTv (processRows
      ⟨fun t => if t = [98] then [42] else [], fun _ => [],
        fun i => if i = 42 then [1] else [], fun _ _ => [⟨[97], 1⟩]⟩
      initState (prepRows [⟨some [97], some [98], 1, 1⟩])).yamtrack_rows 42 = 1 ∧
    countSeason (processRows
      ⟨fun t => if t = [98] then [42] else [], fun _ => [],
        fun i => if i = 42 then [1] else [], fun _ _ => [⟨[97], 1⟩]⟩
      initState (prepRows [⟨some [97], some [98], 1, 1⟩])).yamtrack_rows 42 1 = 1 :=
  ⟨(tier_emitted_exactly_once _ _ ⟨some [97], some [98], 1, 1⟩ 42 1 1
      (by decide) (by decide)).1,
   (tier_emitted_exactly_once _ _ ⟨some [97], some [98], 1, 1⟩ 42 1 1
      (by decide) (by decide)).2.1⟩

/-- C3: the output list is hierarchically ordered — every episode record
is preceded by the show record for its show id and the season record for
its (show id, season) pair — and for a resolved episode of an
already-recorded show and season only the episode-tier record is
appended. -/
theorem hierarchical_emission (net : Net) (rows : List Row) :
    hierOrdered (processRows net initState (prepRows rows)).yamtrack_rows ∧
    (∀ (st : PState) (r : Row) (tv_id sn en : Nat),
      classify (canonTitle r.programTitle) (canonTitle r.seasonTitle) = RowClass.episodeRow →
      search_tv_show net (canonTitle r.seasonTitle) = some tv_id →
      (get_episode_info net st.cache tv_id (canonTitle r.programTitle)).result =
        some (sn, en) →
      tv_id ∈ st.processed_tv_shows →
      seasonKeyChars tv_id sn ∈ st.processed_seasons →
      (processRow net st r).yamtrack_rows =
        st.yamtrack_rows ++ [episodeRec tv_id sn en (endDatetime r)]) := by
  constructor
  · exact (processRows_inv (prepRows rows) initState (PInv_initState net)).hier
  · intro st r tv_id sn en hcl hse hres htv hsk
    rw [processRow_found_eq hcl hse hres]
    dsimp only
    rw [if_pos htv, if_pos hsk]
    simp

theorem hierarchical_emission_witness :
    (processRow
      ⟨fun t => if t = [98] then [42] else [], fun _ => [],
        fun i => if i = 42 then [1] else [], fun _ _ => [⟨[97], 1⟩]⟩
      ⟨[], [42], [seasonKeyChars 42 1], [], [], 0⟩
      ⟨some [97], some [98], 1, 1⟩).yamtrack_rows =
    ([] : List OutRec) ++
      [episodeRec 42 1 1 (endDatetime ⟨some [97], some [98], 1, 1⟩)] :=
  (hierarchical_emission _ []).2 ⟨[], [42], [seasonKeyChars 42 1], [], [], 0⟩
    ⟨some [97], some [98], 1, 1⟩ 42 1 1
    (by decide) (by decide) (by decide) (by decide) (List.mem_singleton_self _)
